import Mathlib

/-!
# Verification of the Docker challenge scorer (`run.py`) and companion app (`src/app.py`)

This file shallowly embeds the checker script `run.py` and the `/health`
endpoint of the companion Flask app, and proves the frozen claims about them.

Conventions:
* file contents are `String`s; reads that can fail (missing file, permission,
  encoding) are `Except Unit String`;
* Python regular-expression searches used by the source
  (`^FROM\s+`, `^FROM\s+(\S+)`, `^USER\s+(?!root)`, all with `re.MULTILINE`)
  are embedded as character-list scanners reproducing CPython's leftmost,
  non-overlapping match semantics with greedy `\s+`/`\S+`;
* Python `float` arithmetic is embedded exactly as IEEE-754 binary64
  round-to-nearest-even over integer fractions (no overflow/subnormal
  handling, which is irrelevant in the value ranges this program touches).
-/

set_option maxRecDepth 20000

namespace DockerChallenge

/-! ## Character and substring utilities (Python `in`, `strip`, `replace`) -/

/-- ASCII whitespace, as matched by Python's `\s` and stripped by `str.strip`. -/
def isWs (c : Char) : Bool :=
  c = ' ' || c = '\t' || c = '\n' || c = '\r' || c = '\x0b' || c = '\x0c'

/-- Prefix test: `isPrefixList p l` is true when `p` is a prefix of `l`. -/
def isPrefixList : List Char → List Char → Bool
  | [], _ => true
  | _ :: _, [] => false
  | a :: as, b :: bs => a = b && isPrefixList as bs

/-- Substring containment on character lists (Python's `needle in hay`). -/
def containsSub (needle : List Char) : List Char → Bool
  | [] => isPrefixList needle []
  | c :: rest => isPrefixList needle (c :: rest) || containsSub needle rest

/-- Python's `needle in hay` on strings. -/
def hasSub (needle hay : String) : Bool := containsSub needle.toList hay.toList

/-- Python's `str.strip()` (ASCII whitespace at both ends). -/
def pyStrip (s : String) : String :=
  String.mk (((s.toList.dropWhile isWs).reverse.dropWhile isWs).reverse)

/-- Python's `str.replace(pat, "")`, removing every (leftmost,
non-overlapping) occurrence of `pat`; only used with the nonempty patterns
`"GB"`/`"MB"`. Structural recursion on a fuel counter (one unit per
consumed character) keeps the definition kernel-reducible. -/
def removeAllAux (pat : List Char) : Nat → List Char → List Char
  | 0, cs => cs
  | fuel + 1, cs =>
    match cs with
    | [] => []
    | c :: rest =>
      if isPrefixList pat (c :: rest) && decide (1 ≤ pat.length) then
        removeAllAux pat fuel ((c :: rest).drop pat.length)
      else
        c :: removeAllAux pat fuel rest

/-- Python's `s.replace(pat, "")`. -/
def removeAll (pat : List Char) (cs : List Char) : List Char :=
  removeAllAux pat cs.length cs

/-! ## Exact IEEE-754 binary64 model (Python `float` arithmetic)

Rationals are handled as explicit numerator/denominator pairs of integers
(denominator always positive), and doubles as mantissa·2^exponent pairs, so
that everything evaluates by kernel `Int`/`Nat` arithmetic. The binade
search is a bounded linear scan over exponents in `[-80, 80]`, which
covers every magnitude this program can produce. -/

/-- A binary64 value, represented exactly as `mant * 2 ^ exp`. -/
structure F64 where
  mant : ℤ
  exp : ℤ
deriving DecidableEq, Repr

/-- Test of `2^e ≤ N/D`, for a positive integer denominator `D`. -/
def le2pow (e : ℤ) (N D : ℤ) : Bool :=
  if 0 ≤ e then D * ((2 ^ e.toNat : ℕ) : ℤ) ≤ N else D ≤ N * ((2 ^ (-e).toNat : ℕ) : ℤ)

/-- Linear scan for the binade: the largest `e` in `[80 - fuel + 1, 80]`
with `2^e ≤ N/D`, else the sentinel `-81`. -/
def findExpAux : Nat → ℤ → ℤ → ℤ
  | 0, _, _ => -81
  | f + 1, N, D =>
    let e : ℤ := (f : ℤ) - 80
    if le2pow e N D then e else findExpAux f N D

/-- Floor base-2 logarithm `⌊log₂ (N/D)⌋` for `0 < N/D`, covering exponents in `[-80, 80]` — i.e.
all magnitudes in `[2^-80, 2^81)`, far beyond anything this program's
percentages or image sizes can reach. -/
def findExp (N D : ℤ) : ℤ := findExpAux 161 N D

/-- Round `N/D` (with `D > 0`) to an integer, ties to even. -/
def rne (N D : ℤ) : ℤ :=
  let q := Int.fdiv N D
  let r := N - q * D
  if 2 * r < D then q
  else if D < 2 * r then q + 1
  else if q % 2 = 0 then q else q + 1

/-- Correctly round the exact rational `N/D` (with `D > 0`) to the nearest
binary64 value: 53-bit significand, round-to-nearest, ties-to-even; the
exponent is treated as unbounded, which agrees with IEEE-754 binary64 away
from the overflow/subnormal range. -/
def fround (N D : ℤ) : F64 :=
  if N = 0 then ⟨0, 0⟩
  else
    let A : ℤ := (N.natAbs : ℤ)
    let e := findExp A D
    let scaled : ℤ × ℤ :=
      if e ≤ 52 then (A * ((2 ^ (52 - e).toNat : ℕ) : ℤ), D)
      else (A, D * ((2 ^ (e - 52).toNat : ℕ) : ℤ))
    let m := rne scaled.1 scaled.2
    if 0 < N then ⟨m, e - 52⟩ else ⟨-m, e - 52⟩

/-- The exact value of a binary64 number, as a fraction with positive
denominator. -/
def F64.toFrac (f : F64) : ℤ × ℤ :=
  if 0 ≤ f.exp then (f.mant * ((2 ^ f.exp.toNat : ℕ) : ℤ), 1)
  else (f.mant, ((2 ^ (-f.exp).toNat : ℕ) : ℤ))

/-- Python's true division `a / b` of two integers with `b > 0` (the exact
quotient, correctly rounded to a float). -/
def pyTrueDiv (a b : ℤ) : F64 := fround a b

/-- Python's multiplication of a float by an integer (exact product,
correctly rounded). -/
def pyMulInt (f : F64) (c : ℤ) : F64 :=
  fround (f.toFrac.1 * c) f.toFrac.2

/-- Python's `int()` applied to a float: truncation toward zero. -/
def pyIntTrunc (f : F64) : ℤ :=
  let n := f.toFrac.1
  let d := f.toFrac.2
  if 0 ≤ n then Int.fdiv n d else -(Int.fdiv (-n) d)

/-- Float comparison `f < c` against an integer bound (exact, since a
binary64 value is an exact rational). -/
def fltInt (f : F64) (c : ℤ) : Bool :=
  f.toFrac.1 < c * f.toFrac.2

/-- The float written in decimal as `m10 * 10 ^ e10` (e.g. `1.2` is
`pyFloatLit 12 (-1)`): CPython's `float()` correctly rounds the exact
decimal value. -/
def pyFloatLit (m10 e10 : ℤ) : F64 :=
  if 0 ≤ e10 then fround (m10 * ((10 ^ e10.toNat : ℕ) : ℤ)) 1
  else fround m10 ((10 ^ (-e10).toNat : ℕ) : ℤ)

/-! ## Embedded regular-expression scanners

`run.py` uses three `re.MULTILINE` patterns: `^FROM\s+` (counted),
`^FROM\s+(\S+)` (all captures, `re.findall`), and `^USER\s+(?!root)`
(existence, `re.search`). The scanners below reproduce CPython's
left-to-right, non-overlapping matching; `^` matches at offset 0 and right
after each newline, `\s+`/`\S+` are greedy, and backtracking inside
`\s+(?!root)` is reflected in `wsNotRoot`. -/

/-- Length of the maximal whitespace run at the head of the list
(what greedy `\s+` consumes when nothing follows it in the pattern). -/
def wsRunLen (cs : List Char) : Nat := (cs.takeWhile isWs).length

/-- Count the non-overlapping matches of `^FROM\s+` (multiline). `atLS` is
true when the current position is at offset 0 or just after a newline;
every step consumes at least one character, so fuel `cs.length` is enough. -/
def countFromAux : Nat → Bool → List Char → Nat
  | 0, _, _ => 0
  | fuel + 1, atLS, cs =>
    match cs with
    | [] => 0
    | c :: rest =>
      let k := wsRunLen ((c :: rest).drop 4)
      if atLS && isPrefixList "FROM".toList (c :: rest) && decide (1 ≤ k) then
        1 + countFromAux fuel ((c :: rest).getD (3 + k) ' ' == '\n') ((c :: rest).drop (4 + k))
      else
        countFromAux fuel (c == '\n') rest

/-- Count of matches: `len(re.findall(r'^FROM\s+', content, re.MULTILINE))`. -/
def countFrom (content : String) : Nat :=
  countFromAux content.toList.length true content.toList

/-- Captures of `re.findall(r'^FROM\s+(\S+)', content, re.MULTILINE)`, in
order: at each line start spelling `FROM` followed by at least one
whitespace character, the maximal non-whitespace token after the maximal
whitespace run; scanning resumes after the token (never at a line start,
since a token character is not a newline). -/
def fromTokensAux : Nat → Bool → List Char → List (List Char)
  | 0, _, _ => []
  | fuel + 1, atLS, cs =>
    match cs with
    | [] => []
    | c :: rest =>
      let k := wsRunLen ((c :: rest).drop 4)
      let tok := ((c :: rest).drop (4 + k)).takeWhile (fun d => !(isWs d))
      if atLS && isPrefixList "FROM".toList (c :: rest) && decide (1 ≤ k)
          && decide (1 ≤ tok.length) then
        tok :: fromTokensAux fuel false ((c :: rest).drop (4 + k + tok.length))
      else
        fromTokensAux fuel (c == '\n') rest

/-- Captures of `re.findall(r'^FROM\s+(\S+)', content, re.MULTILINE)`. -/
def fromTokens (content : String) : List (List Char) :=
  fromTokensAux content.toList.length true content.toList

/-- Semantics of greedy `\s+(?!root)` with backtracking: some nonempty
whitespace prefix can be consumed so that the remainder does not start with
`root`. -/
def wsNotRoot : List Char → Bool
  | [] => false
  | c :: rest => isWs c && (!(isPrefixList "root".toList rest) || wsNotRoot rest)

/-- A match of `USER\s+(?!root)` anchored at the current position. -/
def matchUserHere (cs : List Char) : Bool :=
  isPrefixList "USER".toList cs && wsNotRoot (cs.drop 4)

/-- Scan every position with its line-start status for a `^USER\s+(?!root)`
match. -/
def searchUserAux : Bool → List Char → Bool
  | atLS, [] => atLS && matchUserHere []
  | atLS, c :: rest => (atLS && matchUserHere (c :: rest)) || searchUserAux (c == '\n') rest

/-- Whether `re.search(r'^USER\s+(?!root)', content, re.MULTILINE)` is not `None`. -/
def searchUser (content : String) : Bool := searchUserAux true content.toList

/-- Python's `content.split('\n')`. -/
def splitLines : List Char → List (List Char)
  | [] => [[]]
  | c :: rest =>
    if c = '\n' then [] :: splitLines rest
    else
      match splitLines rest with
      | [] => [[c]]
      | l :: ls => (c :: l) :: ls

/-- The argument of a `USER` line: the token after the whitespace that
follows the keyword. -/
def userLineArg (line : List Char) : List Char :=
  ((line.drop 4).dropWhile isWs).takeWhile (fun c => !(isWs c))

/-- The claim's reading of the non-root check, transcribed from the spec's
words rather than from the source (refinement spec for comparison): the
file contains `useradd` or `adduser`, **and** some line matches
`^USER\s+` with an argument different from `root`. -/
def spec_nonroot (content : String) : Bool :=
  (hasSub "useradd" content || hasSub "adduser" content) &&
    (splitLines content.toList).any (fun line =>
      isPrefixList "USER".toList line && decide (1 ≤ wsRunLen (line.drop 4)) &&
      !(userLineArg line == "root".toList))

/-! ## Filesystem state and the seven static inspectors -/

/-- The filesystem facts the static checks consult. Each file read is an
`Except`: `.error ()` stands for any raised `OSError`/`UnicodeDecodeError`
(missing file, permission, encoding); `.ok content` is a successful read.
Existence probes (`Path.exists()`) are separate booleans since they raise
nothing. -/
structure FsState where
  dockerfileExists : Bool
  dockerfile : Except Unit String
  dockerignoreExists : Bool
  dockerignore : Except Unit String
  composeExists : Bool
  compose : Except Unit String

/-- Python's `try: return body except: return False` wrapper shared by the
static inspectors: an exception becomes an ordinary `false`. -/
def pyTry (body : Except Unit Bool) : Bool :=
  match body with
  | .ok b => b
  | .error _ => false

/-- Embedding of `check_dockerfile_exists` from `run.py`. -/
def check_dockerfile_exists (fs : FsState) : Bool :=
  fs.dockerfileExists

/-- Embedding of `check_multistage` from `run.py`. -/
def check_multistage (fs : FsState) : Bool :=
  pyTry (match fs.dockerfile with
    | .error e => .error e
    | .ok content =>
      let from_count := countFrom content
      .ok (decide (2 ≤ from_count)))

/-- Embedding of `check_slim_image` from `run.py`. -/
def check_slim_image (fs : FsState) : Bool :=
  pyTry (match fs.dockerfile with
    | .error e => .error e
    | .ok content =>
      let from_statements := fromTokens content
      match from_statements.getLast? with
      | some last_from =>
          .ok (containsSub "slim".toList last_from || containsSub "alpine".toList last_from)
      | none => .ok false)

/-- Embedding of `check_nonroot_user` from `run.py`. -/
def check_nonroot_user (fs : FsState) : Bool :=
  pyTry (match fs.dockerfile with
    | .error e => .error e
    | .ok content =>
      let has_useradd := hasSub "useradd" content || hasSub "adduser" content
      let has_user := searchUser content
      .ok (has_useradd && has_user))

/-- Embedding of `check_healthcheck` from `run.py`. -/
def check_healthcheck (fs : FsState) : Bool :=
  pyTry (match fs.dockerfile with
    | .error e => .error e
    | .ok content => .ok (hasSub "HEALTHCHECK" content))

/-- Embedding of `check_dockerignore` from `run.py`. -/
def check_dockerignore (fs : FsState) : Bool :=
  pyTry (
    if !fs.dockerignoreExists then .ok false
    else match fs.dockerignore with
      | .error e => .error e
      | .ok content =>
        let has_pycache := hasSub "__pycache__" content || hasSub "*.pyc" content
        let has_venv := hasSub "venv" content || hasSub ".venv" content
        .ok (has_pycache && has_venv))

/-- Embedding of `check_compose_valid` from `run.py` (the computed `has_redis` is unused
in the source's final condition and is kept as dead code here too). -/
def check_compose_valid (fs : FsState) : Bool :=
  pyTry (
    if !fs.composeExists then .ok false
    else match fs.compose with
      | .error e => .error e
      | .ok content =>
        let has_api := hasSub "api:" content
        let _has_redis := hasSub "redis:" content || hasSub "redis:7" content
        let has_ports := hasSub "5000:5000" content
        .ok (has_api && has_ports))

/-! ## `check_image_size`: size-string parsing and the 200 MB budget -/

/-- The value of a list of decimal digits. -/
def digitsVal (ds : List Char) : ℕ :=
  ds.foldl (fun a c => a * 10 + (c.toNat - '0'.toNat)) 0

/-- CPython's `float(s)` on a decimal numeral: optional surrounding
whitespace, optional sign, digits with an optional fractional part (at
least one digit overall), and an optional `e`/`E` exponent. Returns the
correctly rounded binary64 value, or `none` when `float()` would raise
`ValueError`. (The `inf`/`nan` spellings and `_` digit separators accepted
by CPython are outside the value range/format this program can meet and are
not modelled.) -/
def pyFloatParse (s : String) : Option F64 :=
  let cs0 := s.toList.dropWhile isWs
  let cs1 := ((cs0.reverse.dropWhile isWs).reverse)
  let (sgn, cs2) : ℤ × List Char :=
    match cs1 with
    | '+' :: r => (1, r)
    | '-' :: r => (-1, r)
    | r => (1, r)
  let intd := cs2.takeWhile Char.isDigit
  let after1 := cs2.drop intd.length
  let (fracd, after2) : List Char × List Char :=
    match after1 with
    | '.' :: r => (r.takeWhile Char.isDigit, r.drop (r.takeWhile Char.isDigit).length)
    | r => ([], r)
  if intd.length + fracd.length = 0 then none
  else
    let mant : ℤ := sgn * (digitsVal (intd ++ fracd) : ℤ)
    let e10 : ℤ := -(fracd.length : ℤ)
    match after2 with
    | [] => some (pyFloatLit mant e10)
    | e :: r =>
      if e == 'e' || e == 'E' then
        let (esgn, r2) : ℤ × List Char :=
          match r with
          | '+' :: rr => (1, rr)
          | '-' :: rr => (-1, rr)
          | rr => (1, rr)
        let ed := r2.takeWhile Char.isDigit
        if ed.length = 0 || (r2.drop ed.length) ≠ [] then none
        else some (pyFloatLit mant (e10 + esgn * (digitsVal ed : ℤ)))
      else none

/-- The environment `check_image_size` runs in: `.error msg` models the
`subprocess.run` call itself raising (`str(e)` is `msg`), `.ok (rc, out)`
a completed `docker images` call with exit status `rc` and standard output
`out`. -/
abbrev SizeEnv := Except String (ℤ × String)

/-- CPython's `str(ValueError)` text for a failed `float()` conversion. -/
def floatErrMsg (s : String) : String :=
  "could not convert string to float: '" ++ (s ++ "'")

/-- Embedding of `check_image_size` from `run.py`: returns `(passed, detail)`. The
`float()` call's `ValueError` propagates to the outer `except Exception`,
which returns `(False, str(e))`. -/
def check_image_size (env : SizeEnv) : Bool × String :=
  match env with
  | .error e => (false, e)
  | .ok (returncode, stdout) =>
    if returncode ≠ 0 then (false, "Image not found")
    else
      let size_str := pyStrip stdout
      if hasSub "GB" size_str then
        let stripped := String.mk (removeAll "GB".toList size_str.toList)
        match pyFloatParse stripped with
        | some f => (fltInt (pyMulInt f 1024) 200, size_str)
        | none => (false, floatErrMsg stripped)
      else if hasSub "MB" size_str then
        let stripped := String.mk (removeAll "MB".toList size_str.toList)
        match pyFloatParse stripped with
        | some f => (fltInt f 200, size_str)
        | none => (false, floatErrMsg stripped)
      else
        (false, "Unknown size format: " ++ size_str)

/-- The normalization step of `check_image_size` in isolation (lines
168–173 of `run.py`): the megabyte value of a (stripped) size string, or
`none` when the suffix is unrecognized or `float()` would raise. -/
def size_mb (size_str : String) : Option F64 :=
  if hasSub "GB" size_str then
    (pyFloatParse (String.mk (removeAll "GB".toList size_str.toList))).map
      (fun f => pyMulInt f 1024)
  else if hasSub "MB" size_str then
    pyFloatParse (String.mk (removeAll "MB".toList size_str.toList))
  else none

/-! ## `check_container_runs`: the container probe -/

/-- The external actions `check_container_runs` can perform, in source
order: idempotent pre-removal, detached `docker run`, the settle delay,
the HTTP health request (with JSON decoding), and the final force-removal. -/
inductive DockerAction
  | rmPre
  | runContainer
  | sleepSettle
  | httpGet
  | rmCleanup
deriving DecidableEq, Repr

/-- Environment of one probe run: which external calls raise, the `docker
run` exit status, and the outcome of the HTTP request and of JSON-decoding
its body (`.error ()` models a raised exception; the decoded body is the
top-level JSON object as a string-valued association list). -/
structure ProbeEnv where
  preRemoveRaises : Bool
  runRaises : Bool
  runReturncode : ℤ
  httpResponse : Except Unit String
  jsonResult : Except Unit (List (String × String))
  cleanupRaises : Bool

/-- Embedding of `check_container_runs` from `run.py`, returning the boolean result and
the trace of external actions actually executed. The outer `try/except`
maps any raise to `False`; the inner `try/except` around the HTTP GET and
JSON parse maps their raises to `success = False` and falls through to the
cleanup, which is always reached once the container started. -/
def check_container_runs (env : ProbeEnv) : Bool × List DockerAction :=
  if env.preRemoveRaises then (false, [DockerAction.rmPre])
  else if env.runRaises then (false, [DockerAction.rmPre, DockerAction.runContainer])
  else if env.runReturncode ≠ 0 then (false, [DockerAction.rmPre, DockerAction.runContainer])
  else
    let success :=
      match env.httpResponse, env.jsonResult with
      | .ok _, .ok data => decide (data.lookup "status" = some "healthy")
      | _, _ => false
    let trace := [DockerAction.rmPre, DockerAction.runContainer, DockerAction.sleepSettle,
      DockerAction.httpGet, DockerAction.rmCleanup]
    if env.cleanupRaises then (false, trace) else (success, trace)

/-! ## The companion app's `/health` endpoint (`src/app.py`) -/

/-- State of the optional Redis backend as seen by `get_redis()` and the
subsequent `ping`: `none'` when `get_redis()` returns `None` (never
configured or the connection attempt failed), `ok` when a client exists
and `ping()` succeeds, `failing` when a client exists and `ping()` raises. -/
inductive RedisAvail
  | none'
  | ok
  | failing
deriving DecidableEq, Repr

/-- The JSON object the `health` handler returns. -/
structure HealthResponse where
  status : String
  timestamp : String
  checks : List (String × String)
deriving DecidableEq, Repr

/-- Embedding of the `health` handler from `src/app.py`: builds the base object with
`status: "healthy"`, then amends only `checks.redis` according to the
Redis state. -/
def health (redis : RedisAvail) (now : String) : HealthResponse :=
  let status0 : HealthResponse :=
    { status := "healthy", timestamp := now, checks := [("app", "ok")] }
  match redis with
  | .ok => { status0 with checks := status0.checks ++ [("redis", "ok")] }
  | .failing => { status0 with checks := status0.checks ++ [("redis", "unavailable")] }
  | .none' => { status0 with checks := status0.checks ++ [("redis", "not configured")] }

/-! ## `run_checks`: orchestration and scoring -/

/-- The `CHECKS` rubric table from `run.py`. -/
def CHECKS : List (String × ℕ) :=
  [("Dockerfile exists", 5),
   ("Multi-stage build", 15),
   ("Uses slim base image", 10),
   ("Non-root user", 15),
   ("Health check defined", 10),
   (".dockerignore exists", 5),
   ("docker-compose.yml valid", 15),
   ("Image builds successfully", 10),
   ("Image size < 200MB", 10),
   ("Container runs and responds", 5)]

/-- Rubric lookup `next(c for c in CHECKS if c["name"] == name)["points"]`. -/
def checkPoints (name : String) : ℕ := (CHECKS.lookup name).getD 0

/-- The names of the seven static checks, in the `checks_funcs` order. -/
def staticNames : List String :=
  ["Dockerfile exists", "Multi-stage build", "Uses slim base image", "Non-root user",
   "Health check defined", ".dockerignore exists", "docker-compose.yml valid"]

/-- The scoring state mutated by `run_checks`: running point totals, the
`(earned, total)` pair after each scoring step, and the names of the
checks attempted so far. -/
structure ScoreState where
  earned : ℕ
  total : ℕ
  states : List (ℕ × ℕ)
  attempted : List String
deriving DecidableEq, Repr

/-- The outcome of one full post-probe run. -/
structure RunResult where
  earned : ℕ
  total : ℕ
  states : List (ℕ × ℕ)
  attempted : List String
  pct : ℤ
deriving DecidableEq, Repr

/-- The summary's percentage:
`int((earned_points / total_points) * 100) if total_points > 0 else 0`,
in exact binary64 arithmetic. -/
def pyPct (earned total : ℕ) : ℤ :=
  if 0 < total then pyIntTrunc (pyMulInt (pyTrueDiv earned total) 100) else 0

/-- The scoring state machine of `run_checks`, over the boolean outcomes of
the ten checks: the loop over the seven static checks, then the build
check; on build success the size and run checks are scored, on build
failure `total_points += 15` is the placeholder for them and neither is
attempted. -/
def scoreCore (s1 s2 s3 s4 s5 s6 s7 bBuild bSize bRun : Bool) : RunResult :=
  let staticResults : List (Bool × String) :=
    [(s1, "Dockerfile exists"), (s2, "Multi-stage build"), (s3, "Uses slim base image"),
     (s4, "Non-root user"), (s5, "Health check defined"), (s6, ".dockerignore exists"),
     (s7, "docker-compose.yml valid")]
  let st1 := staticResults.foldl (fun st pr =>
    let pts := checkPoints pr.2
    let total := st.total + pts
    let earned := if pr.1 then st.earned + pts else st.earned
    ⟨earned, total, st.states ++ [(earned, total)], st.attempted ++ [pr.2]⟩)
    (⟨0, 0, [], []⟩ : ScoreState)
  let bpts := checkPoints "Image builds successfully"
  let t2 := st1.total + bpts
  if bBuild then
    let e2 := st1.earned + bpts
    let spts := checkPoints "Image size < 200MB"
    let t3 := t2 + spts
    let e3 := if bSize then e2 + spts else e2
    let rpts := checkPoints "Container runs and responds"
    let t4 := t3 + rpts
    let e4 := if bRun then e3 + rpts else e3
    { earned := e4, total := t4,
      states := st1.states ++ [(e2, t2), (e3, t3), (e4, t4)],
      attempted := st1.attempted ++
        ["Image builds successfully", "Image size < 200MB", "Container runs and responds"],
      pct := pyPct e4 t4 }
  else
    { earned := st1.earned, total := t2 + 15,
      states := st1.states ++ [(st1.earned, t2), (st1.earned, t2 + 15)],
      attempted := st1.attempted ++ ["Image builds successfully"],
      pct := pyPct st1.earned (t2 + 15) }

/-- Environment of one post-probe run: the filesystem the static checks
read, the build outcome (`docker build` completed with exit status 0), and
the environments of the size query and the container probe. -/
structure RunEnv where
  fs : FsState
  buildOk : Bool
  sizeEnv : SizeEnv
  probeEnv : ProbeEnv

/-- Embedding of `run_checks` from `run.py`, past the Docker availability probe: the
seven static inspectors feed the scoring state machine, then the build,
size and run checks. -/
def run_checks (env : RunEnv) : RunResult :=
  scoreCore (check_dockerfile_exists env.fs) (check_multistage env.fs)
    (check_slim_image env.fs) (check_nonroot_user env.fs) (check_healthcheck env.fs)
    (check_dockerignore env.fs) (check_compose_valid env.fs)
    env.buildOk (check_image_size env.sizeEnv).1 (check_container_runs env.probeEnv).1

/-- Embedding of `run_checks` including the initial `docker --version` probe: when the
probe raises, the function returns before any check executes (no summary). -/
def run_checks_full (dockerOk : Bool) (env : RunEnv) : Option RunResult :=
  if dockerOk then some (run_checks env) else none

/-! ## Concrete environments used by witnesses and counterexamples -/

/-- A Dockerfile satisfying all seven static checks. -/
def goodDockerfile : String :=
  "FROM python:3.11 AS build\nRUN useradd app\nFROM python:3.11-slim\nHEALTHCHECK CMD curl -f http://localhost:5000/health\nUSER app\n"

/-- Filesystem on which every static check passes. -/
def fsAllGood : FsState :=
  ⟨true, .ok goodDockerfile, true, .ok "__pycache__/\n.venv/\n",
   true, .ok "services:\n  api:\n    ports:\n      - \"5000:5000\"\n"⟩

/-- Filesystem where every file is missing/unreadable. -/
def fsAllBad : FsState := ⟨false, .error (), false, .error (), false, .error ()⟩

/-- A probe run where the container starts and the health request and JSON
decode succeed with a healthy status. -/
def probeOkEnv : ProbeEnv := ⟨false, false, 0, .ok "resp", .ok [("status", "healthy")], false⟩

/-- A probe run where the container starts but the HTTP request raises
(so the JSON decode never yields a value either). -/
def probeHttpRaisesEnv : ProbeEnv := ⟨false, false, 0, .error (), .error (), false⟩

/-- Dockerfile whose only `USER` line argument is `root2` (different from
`root`, but starting with it). -/
def fsUserRoot2 : FsState :=
  ⟨true, .ok "useradd\nUSER root2", false, .error (), false, .error ()⟩

/-- Dockerfile whose only `USER` line is `USER  root` with two spaces. -/
def fsUserDoubleSpaceRoot : FsState :=
  ⟨true, .ok "useradd\nUSER  root", false, .error (), false, .error ()⟩

/-- Dockerfile whose earlier `FROM` reference contains `slim` but whose
last stage is `scratch`. -/
def fsSlimScratch : FsState :=
  ⟨true, .ok "FROM slim-base AS build\nFROM scratch", false, .error (), false, .error ()⟩

/-- Dockerfile with a single slim `FROM`. -/
def fsSlimOnly : FsState :=
  ⟨true, .ok "FROM python:3.11-slim", false, .error (), false, .error ()⟩

/-- All seven static checks pass, the build fails. -/
def envAllPassBuildFail : RunEnv := ⟨fsAllGood, false, .ok (0, "142MB"), probeHttpRaisesEnv⟩

/-- Everything passes. -/
def envAllPassBuildOk : RunEnv := ⟨fsAllGood, true, .ok (0, "142MB"), probeOkEnv⟩

/-! ## Scoring lemmas (exhaustive over the ten boolean check outcomes) -/

/-- Decidable bundle of scoring facts: the denominator is always exactly
100, the earned points are a multiple of 5 bounded by 100, and after every
scoring step `earned ≤ total`. -/
def scorePropsOk (r : RunResult) : Bool :=
  (r.total == 100) && (r.earned % 5 == 0) && Nat.ble r.earned 100 &&
    (r.states.all fun p => Nat.ble p.1 p.2)

theorem scoreCore_props (s1 s2 s3 s4 s5 s6 s7 bB bS bR : Bool) :
    scorePropsOk (scoreCore s1 s2 s3 s4 s5 s6 s7 bB bS bR) = true := by
  revert s1 s2 s3 s4 s5 s6 s7 bB bS bR; decide

theorem scoreCore_attempted (s1 s2 s3 s4 s5 s6 s7 bB bS bR : Bool) :
    (scoreCore s1 s2 s3 s4 s5 s6 s7 bB bS bR).attempted =
      staticNames ++ "Image builds successfully" ::
        (if bB then ["Image size < 200MB", "Container runs and responds"] else []) := by
  cases bB <;> rfl

theorem scoreCore_buildFail_earned (s1 s2 s3 s4 s5 s6 s7 bS bR : Bool) :
    (s1 && s2 && s3 && s4 && s5 && s6 && s7) = true →
      (scoreCore s1 s2 s3 s4 s5 s6 s7 false bS bR).earned = 75 := by
  revert s1 s2 s3 s4 s5 s6 s7 bS bR; decide

theorem scoreCore_pct (s1 s2 s3 s4 s5 s6 s7 bB bS bR : Bool) :
    (scoreCore s1 s2 s3 s4 s5 s6 s7 bB bS bR).pct =
      pyPct (scoreCore s1 s2 s3 s4 s5 s6 s7 bB bS bR).earned
        (scoreCore s1 s2 s3 s4 s5 s6 s7 bB bS bR).total := by
  cases bB <;> rfl

/-- The float percentage computation agrees with exact integer arithmetic
on every multiple of 5 up to 100 (the only earned values the rubric can
produce). This is where `int((e/t)*100)` could in principle lose a unit to
binary rounding — and does for e.g. `e = 29` — but never does on multiples
of 5. -/
theorem pyPct_mult5 : ∀ e : Fin 101, (e : ℕ) % 5 = 0 → pyPct e 100 = (e : ℕ) := by
  decide

/-- Unpacked form of `scorePropsOk`. -/
theorem scoreProps_spec (r : RunResult) (h : scorePropsOk r = true) :
    r.total = 100 ∧ r.earned % 5 = 0 ∧ r.earned ≤ 100 ∧ ∀ p ∈ r.states, p.1 ≤ p.2 := by
  simp only [scorePropsOk, Bool.and_eq_true, beq_iff_eq, Nat.ble_eq, List.all_eq_true] at h
  exact ⟨h.1.1.1, h.1.1.2, h.1.2, fun p hp => by simpa using h.2 p hp⟩

/-- Facts about `run_checks`, transported from `scoreCore`. -/
theorem run_checks_props (env : RunEnv) :
    (run_checks env).total = 100 ∧ (run_checks env).earned % 5 = 0 ∧
      (run_checks env).earned ≤ 100 ∧ ∀ p ∈ (run_checks env).states, p.1 ≤ p.2 :=
  scoreProps_spec _ (scoreCore_props _ _ _ _ _ _ _ _ _ _)

/-- The reported percentage, as computed through binary64 floats, equals
the earned points on every reachable scoring state. -/
theorem run_checks_pct (env : RunEnv) :
    (run_checks env).pct = ((run_checks env).earned : ℤ) := by
  obtain ⟨htot, hmod, hle, -⟩ := run_checks_props env
  have hpct : (run_checks env).pct
      = pyPct (run_checks env).earned (run_checks env).total :=
    scoreCore_pct _ _ _ _ _ _ _ _ _ _
  have := pyPct_mult5 ⟨(run_checks env).earned, by omega⟩ hmod
  rw [hpct, htot]
  exact this

/-! ## Claim theorems -/

/-- C2. On every execution path of the container probe that reaches a
successful container start (the pre-removal did not raise, `docker run` did
not raise and exited 0) — including the paths on which the HTTP request or
the JSON parse raises, and regardless of the decoded status — the
force-remove of the fixed-name container is executed before the probe
returns: the action trace is always exactly pre-remove, run, settle, HTTP
get, force-remove. -/
theorem C2_container_cleanup (env : ProbeEnv)
    (h1 : env.preRemoveRaises = false) (h2 : env.runRaises = false)
    (h3 : env.runReturncode = 0) :
    (check_container_runs env).2
        = [DockerAction.rmPre, DockerAction.runContainer, DockerAction.sleepSettle,
           DockerAction.httpGet, DockerAction.rmCleanup] ∧
      DockerAction.rmCleanup ∈ (check_container_runs env).2 := by
  have htrace : (check_container_runs env).2
      = [DockerAction.rmPre, DockerAction.runContainer, DockerAction.sleepSettle,
         DockerAction.httpGet, DockerAction.rmCleanup] := by
    unfold check_container_runs
    rw [h1, h2, h3]
    cases hc : env.cleanupRaises <;> simp [hc]
  refine ⟨htrace, ?_⟩
  rw [htrace]
  decide

/-- Witness for C2: the container started but the HTTP request raised; the
cleanup still ran. -/
theorem C2_container_cleanup_witness :
    DockerAction.rmCleanup ∈ (check_container_runs probeHttpRaisesEnv).2 :=
  (C2_container_cleanup probeHttpRaisesEnv rfl rfl rfl).2

/-- C10. For every Redis state (not configured, reachable, failing) the
`/health` handler's `status` field is the literal `"healthy"`; consequently
the liveness probe's `data.get("status") == "healthy"` comparison succeeds
whenever the container started and the app's response reaches the probe
intact. -/
theorem C10_health_status :
    (∀ (redis : RedisAvail) (now : String), (health redis now).status = "healthy") ∧
    (∀ (redis : RedisAvail) (now : String) (env : ProbeEnv) (body : String)
        (rest : List (String × String)),
      env.preRemoveRaises = false → env.runRaises = false → env.runReturncode = 0 →
      env.cleanupRaises = false → env.httpResponse = .ok body →
      env.jsonResult = .ok (("status", (health redis now).status) :: rest) →
      (check_container_runs env).1 = true) := by
  have hst : ∀ (redis : RedisAvail) (now : String), (health redis now).status = "healthy" := by
    intro redis now
    cases redis <;> rfl
  refine ⟨hst, ?_⟩
  intro redis now env body rest h1 h2 h3 h4 h5 h6
  rw [hst] at h6
  unfold check_container_runs
  rw [h1, h2, h3, h4, h5, h6]
  simp [List.lookup]

/-- Witness for C10 at a concrete Redis-less state and probe environment. -/
theorem C10_health_status_witness :
    (check_container_runs probeOkEnv).1 = true :=
  C10_health_status.2 RedisAvail.none' "t" probeOkEnv "resp" [] rfl rfl rfl rfl rfl rfl

/-- C8. The static inspectors are total over filesystem state: whenever
a file read raises (missing file, permission, encoding — all mapped to
`.error ()`), every inspector that reads that file returns an ordinary
`false` instead of propagating the error, and the existence check returns
`false` on a missing Dockerfile. (That no inspector can raise at all is
reflected in their `Bool` codomain: each wraps its fallible body in
`pyTry`, the embedding of its `try/except` returning `False`.) -/
theorem C8_static_checks_total (fs : FsState)
    (h1 : fs.dockerfile = .error ()) (h2 : fs.dockerignore = .error ())
    (h3 : fs.compose = .error ()) :
    check_multistage fs = false ∧ check_slim_image fs = false ∧
      check_nonroot_user fs = false ∧ check_healthcheck fs = false ∧
      check_dockerignore fs = false ∧ check_compose_valid fs = false ∧
      (fs.dockerfileExists = false → check_dockerfile_exists fs = false) := by
  obtain ⟨de, df, ie, ig, ce, co⟩ := fs
  replace h1 : df = .error () := h1
  replace h2 : ig = .error () := h2
  replace h3 : co = .error () := h3
  subst h1; subst h2; subst h3
  refine ⟨rfl, rfl, rfl, rfl, ?_, ?_, fun h => h⟩
  · cases ie <;> rfl
  · cases ce <;> rfl

/-- Witness for C8: the all-errors filesystem. -/
theorem C8_static_checks_total_witness :
    check_multistage fsAllBad = false ∧ check_slim_image fsAllBad = false ∧
      check_nonroot_user fsAllBad = false ∧ check_healthcheck fsAllBad = false ∧
      check_dockerignore fsAllBad = false ∧ check_compose_valid fsAllBad = false ∧
      check_dockerfile_exists fsAllBad = false := by
  have h := C8_static_checks_total fsAllBad rfl rfl rfl
  exact ⟨h.1, h.2.1, h.2.2.1, h.2.2.2.1, h.2.2.2.2.1, h.2.2.2.2.2.1, h.2.2.2.2.2.2 rfl⟩

/-- A nonempty string stays nonempty under right-append. -/
theorem append_ne_empty (a b : String) (h : a.data ≠ []) : a ++ b ≠ "" := by
  intro hc
  apply h
  have hd := congrArg String.data hc
  simp only [String.data_append] at hd
  exact (List.append_eq_nil.mp hd).1

set_option maxHeartbeats 2000000 in
/-- C6. Size-string handling of the image-size check: the three
spec examples (`"1.2GB"` normalizes to the double `1.2 * 1024`, which lies
in `[1228, 1229)` — CPython prints it as `1228.8` — and fails the budget;
`"142MB"` normalizes to `142` and passes; `"500KB"` is an
unrecognized-format failure); in general the check passes iff the process
exited 0 and the normalized megabyte value of the stripped output exists
and is strictly below 200; and the detail string is never empty on a
completed query and is the raised message verbatim otherwise. -/
theorem C6_image_size :
    check_image_size (.ok (0, "1.2GB")) = (false, "1.2GB") ∧
      check_image_size (.ok (0, "142MB")) = (true, "142MB") ∧
      check_image_size (.ok (0, "500KB")) = (false, "Unknown size format: 500KB") ∧
      size_mb "1.2GB" = some (pyMulInt (pyFloatLit 12 (-1)) 1024) ∧
      fltInt (pyMulInt (pyFloatLit 12 (-1)) 1024) 1229 = true ∧
      fltInt (pyMulInt (pyFloatLit 12 (-1)) 1024) 1228 = false ∧
      size_mb "142MB" = some (pyFloatLit 142 0) ∧
      (∀ (rc : ℤ) (out : String), (check_image_size (.ok (rc, out))).1 = true ↔
          rc = 0 ∧ ∃ f, size_mb (pyStrip out) = some f ∧ fltInt f 200 = true) ∧
      (∀ (rc : ℤ) (out : String), (check_image_size (.ok (rc, out))).2 ≠ "") ∧
      (∀ msg, (check_image_size (.error msg)).2 = msg) := by
  refine ⟨by decide, by decide, by decide, by decide, by decide, by decide, by decide,
    ?_, ?_, fun msg => rfl⟩
  · intro rc out
    by_cases hrc : rc = 0
    · subst hrc
      simp only [check_image_size, size_mb, ne_eq, not_true_eq_false, if_false,
        decide_False]
      by_cases hGB : hasSub "GB" (pyStrip out) = true
      · simp only [hGB, if_true]
        cases hp : pyFloatParse (String.mk (removeAll "GB".toList (pyStrip out).toList)) with
        | none => simp [hp]
        | some f => simp [hp]
      · simp only [hGB]
        by_cases hMB : hasSub "MB" (pyStrip out) = true
        · simp only [hMB, if_true, if_false, Bool.false_eq_true]
          cases hp : pyFloatParse (String.mk (removeAll "MB".toList (pyStrip out).toList)) with
          | none => simp [hp, hGB]
          | some f => simp [hp, hGB]
        · simp [hGB, hMB]
    · simp [check_image_size, hrc]
  · intro rc out
    by_cases hrc : rc = 0
    · subst hrc
      by_cases hGB : hasSub "GB" (pyStrip out) = true
      · cases hp : pyFloatParse ⟨removeAll ['G', 'B'] (pyStrip out).data⟩ with
        | none =>
            have hd : (check_image_size (.ok (0, out))).2
                = floatErrMsg ⟨removeAll ['G', 'B'] (pyStrip out).data⟩ := by
              simp [check_image_size, hGB, hp]
            rw [hd, floatErrMsg]
            exact append_ne_empty _ _ (by decide)
        | some f =>
            have hd : (check_image_size (.ok (0, out))).2 = pyStrip out := by
              simp [check_image_size, hGB, hp]
            rw [hd]
            intro he
            rw [he] at hGB
            exact absurd hGB (by decide)
      · by_cases hMB : hasSub "MB" (pyStrip out) = true
        · cases hp : pyFloatParse ⟨removeAll ['M', 'B'] (pyStrip out).data⟩ with
          | none =>
              have hd : (check_image_size (.ok (0, out))).2
                  = floatErrMsg ⟨removeAll ['M', 'B'] (pyStrip out).data⟩ := by
                simp [check_image_size, hGB, hMB, hp]
              rw [hd, floatErrMsg]
              exact append_ne_empty _ _ (by decide)
          | some f =>
              have hd : (check_image_size (.ok (0, out))).2 = pyStrip out := by
                simp [check_image_size, hGB, hMB, hp]
              rw [hd]
              intro he
              rw [he] at hMB
              exact absurd hMB (by decide)
        · have hd : (check_image_size (.ok (0, out))).2
              = "Unknown size format: " ++ pyStrip out := by
            simp [check_image_size, hGB, hMB]
          rw [hd]
          exact append_ne_empty _ _ (by decide)
    · have hd : (check_image_size (.ok (rc, out))).2 = "Image not found" := by
        simp [check_image_size, hrc]
      rw [hd]
      decide

/-- Witness for C6: the general pass-iff characterization evaluated at the
`"142MB"` query. -/
theorem C6_image_size_witness :
    (0 : ℤ) = 0 ∧ ∃ f, size_mb (pyStrip "142MB") = some f ∧ fltInt f 200 = true :=
  (C6_image_size.2.2.2.2.2.2.2.1 0 "142MB").mp (by decide)

/-- C5. The slim-base check consults only the image reference captured
from the last `^FROM\s+(\S+)` match: with no `FROM` line it fails, with a
last reference `tok` it passes iff `tok` contains `slim` or `alpine`, and
on `FROM slim-base AS build` followed by `FROM scratch` it fails despite
the earlier `slim`. -/
theorem C5_slim_last_from :
    (∀ (fs : FsState) (content : String), fs.dockerfile = .ok content →
        fromTokens content = [] → check_slim_image fs = false) ∧
      (∀ (fs : FsState) (content : String) (tok : List Char),
        fs.dockerfile = .ok content → (fromTokens content).getLast? = some tok →
        (check_slim_image fs = true ↔
          (containsSub "slim".toList tok || containsSub "alpine".toList tok) = true)) ∧
      check_slim_image fsSlimScratch = false := by
  refine ⟨?_, ?_, by decide⟩
  · intro fs content hfs hTok
    simp [check_slim_image, hfs, hTok, pyTry]
  · intro fs content tok hfs hLast
    simp [check_slim_image, hfs, hLast, pyTry]

/-- Witness for C5: a single-stage slim Dockerfile passes. -/
theorem C5_slim_last_from_witness : check_slim_image fsSlimOnly = true :=
  (C5_slim_last_from.2.1 fsSlimOnly "FROM python:3.11-slim"
    "python:3.11-slim".toList rfl (by decide)).mpr (by decide)

/-- C7. In every post-probe run all seven static checks are attempted
regardless of outcomes, the build check is attempted exactly once, on build
success both the size and the container-run check are attempted (each
regardless of the other), and on build failure neither is attempted. -/
theorem C7_check_gating (env : RunEnv) :
    (∀ name ∈ staticNames, name ∈ (run_checks env).attempted) ∧
      (run_checks env).attempted.count "Image builds successfully" = 1 ∧
      (env.buildOk = true →
        "Image size < 200MB" ∈ (run_checks env).attempted ∧
        "Container runs and responds" ∈ (run_checks env).attempted) ∧
      (env.buildOk = false →
        "Image size < 200MB" ∉ (run_checks env).attempted ∧
        "Container runs and responds" ∉ (run_checks env).attempted) := by
  have hatt : (run_checks env).attempted = staticNames ++ "Image builds successfully" ::
      (if env.buildOk then ["Image size < 200MB", "Container runs and responds"] else []) :=
    scoreCore_attempted _ _ _ _ _ _ _ _ _ _
  rw [hatt]
  cases hb : env.buildOk <;> decide

/-- Witness for C7: in the build-failure environment the gated checks are
not attempted. -/
theorem C7_check_gating_witness :
    "Image size < 200MB" ∉ (run_checks envAllPassBuildFail).attempted ∧
      "Container runs and responds" ∉ (run_checks envAllPassBuildFail).attempted :=
  (C7_check_gating envAllPassBuildFail).2.2.2 rfl

/-- C9. After every scoring step `earned ≤ total`; at the summary the
denominator is exactly 100 whatever passed and however the build went; and
in exact arithmetic the percentage `⌊100·earned/total⌋` therefore equals
the earned points. -/
theorem C9_invariants (env : RunEnv) :
    (∀ p ∈ (run_checks env).states, p.1 ≤ p.2) ∧
      (run_checks env).total = 100 ∧
      (100 * (run_checks env).earned) / (run_checks env).total = (run_checks env).earned := by
  obtain ⟨htot, hmod, hle, hstates⟩ := run_checks_props env
  refine ⟨hstates, htot, ?_⟩
  rw [htot]
  exact Nat.mul_div_cancel_left (run_checks env).earned (by norm_num)

/-- Witness for C9: the first scoring step of the all-pass run. -/
theorem C9_invariants_witness :
    (run_checks envAllPassBuildOk).total = 100 ∧ (5, 5).1 ≤ (5, 5).2 :=
  ⟨(C9_invariants envAllPassBuildOk).2.1,
   (C9_invariants envAllPassBuildOk).1 (5, 5) (by decide)⟩

/-- C3. Every run that reaches the summary reports
`pct = ⌊100·earned/total⌋` — the binary64 computation
`int((earned/total)*100)` never deviates from the exact floor on reachable
scores — and the guard in the source returns 0 whenever `total = 0`. -/
theorem C3_summary_percentage :
    (∀ (dockerOk : Bool) (env : RunEnv) (r : RunResult),
        run_checks_full dockerOk env = some r →
        r.pct = ((100 * r.earned) / r.total : ℕ)) ∧
      (∀ e : ℕ, pyPct e 0 = 0) := by
  constructor
  · intro dockerOk env r hr
    cases dockerOk with
    | false => simp [run_checks_full] at hr
    | true =>
      replace hr : run_checks env = r := by simpa [run_checks_full] using hr
      subst hr
      obtain ⟨htot, hmod, -, -⟩ := run_checks_props env
      rw [htot, Nat.mul_div_cancel_left _ (by norm_num : 0 < 100)]
      exact run_checks_pct env
  · intro e
    rfl

/-- Witness for C3 at the concrete build-failure run. -/
theorem C3_summary_percentage_witness :
    (run_checks envAllPassBuildFail).pct
      = ((100 * (run_checks envAllPassBuildFail).earned)
          / (run_checks envAllPassBuildFail).total : ℕ) :=
  C3_summary_percentage.1 true envAllPassBuildFail _ rfl

/-- Counterexample to C1 as stated: in the run where all seven static
checks pass and the build fails, the denominator is 100 — not 85 — because
the source adds `total_points += 15` for the skipped size and run checks;
the earned points are indeed 75. -/
theorem C1_total_counterexample :
    (run_checks envAllPassBuildFail).total = 100 ∧
      (run_checks envAllPassBuildFail).total ≠ 85 ∧
      (run_checks envAllPassBuildFail).earned = 75 := by
  refine ⟨by decide, by decide, by decide⟩

/-- C1 (amended). When the build fails, the size and container-run
checks are not attempted, but a fixed 15-point placeholder for them is
still added to the denominator, so `totalPoints = 100` (85 for the checks
attempted plus the placeholder); with all seven static checks passing,
`earnedPoints = 75`. -/
theorem C1_build_failure_denominator (env : RunEnv) (hb : env.buildOk = false) :
    (run_checks env).total = 100 ∧
      "Image size < 200MB" ∉ (run_checks env).attempted ∧
      "Container runs and responds" ∉ (run_checks env).attempted ∧
      (check_dockerfile_exists env.fs = true → check_multistage env.fs = true →
        check_slim_image env.fs = true → check_nonroot_user env.fs = true →
        check_healthcheck env.fs = true → check_dockerignore env.fs = true →
        check_compose_valid env.fs = true → (run_checks env).earned = 75) := by
  have hatt : (run_checks env).attempted = staticNames ++ "Image builds successfully" ::
      (if env.buildOk then ["Image size < 200MB", "Container runs and responds"] else []) :=
    scoreCore_attempted _ _ _ _ _ _ _ _ _ _
  rw [hb] at hatt
  refine ⟨(run_checks_props env).1, ?_, ?_, ?_⟩
  · rw [hatt]; decide
  · rw [hatt]; decide
  · intro h1 h2 h3 h4 h5 h6 h7
    unfold run_checks
    rw [hb]
    exact scoreCore_buildFail_earned _ _ _ _ _ _ _ _ _
      (by rw [h1, h2, h3, h4, h5, h6, h7]; rfl)

/-- Witness for the amended C1 at the concrete all-pass build-failure run. -/
theorem C1_build_failure_denominator_witness :
    (run_checks envAllPassBuildFail).total = 100 ∧
      (run_checks envAllPassBuildFail).earned = 75 := by
  have h := C1_build_failure_denominator envAllPassBuildFail rfl
  exact ⟨h.1, h.2.2.2 (by decide) (by decide) (by decide) (by decide) (by decide)
    (by decide) (by decide)⟩

/-- Backtracking semantics of `\s+(?!root)`, positionally: some nonempty
whitespace prefix of length `k` can be consumed with the remainder not
starting with `root`. -/
theorem wsNotRoot_iff (cs : List Char) :
    wsNotRoot cs = true ↔
      ∃ k, 1 ≤ k ∧ k ≤ cs.length ∧ ((cs.take k).all isWs) = true ∧
        isPrefixList "root".toList (cs.drop k) = false := by
  induction cs with
  | nil =>
      simp only [wsNotRoot, List.length_nil]
      constructor
      · intro h
        exact absurd h (by decide)
      · rintro ⟨k, hk1, hklen, -, -⟩
        omega
  | cons c rest ih =>
      constructor
      · intro h
        simp only [wsNotRoot, Bool.and_eq_true, Bool.or_eq_true, Bool.not_eq_true'] at h
        obtain ⟨hc, hor⟩ := h
        rcases hor with hnp | hrec
        · exact ⟨1, le_refl 1, by simp, by simp [hc], by simpa using hnp⟩
        · obtain ⟨k, hk1, hklen, hall, hnp⟩ := ih.mp hrec
          refine ⟨k + 1, by omega, by simpa using hklen, ?_, ?_⟩
          · simpa [List.take_succ_cons, List.all_cons, hc] using hall
          · simpa [List.drop_succ_cons] using hnp
      · rintro ⟨k, hk1, hklen, hall, hnp⟩
        cases k with
        | zero => omega
        | succ k' =>
          simp only [List.take_succ_cons, List.all_cons, Bool.and_eq_true] at hall
          obtain ⟨hc, hall'⟩ := hall
          simp only [List.drop_succ_cons] at hnp
          simp only [wsNotRoot, Bool.and_eq_true, Bool.or_eq_true, Bool.not_eq_true']
          refine ⟨hc, ?_⟩
          cases k' with
          | zero => left; simpa using hnp
          | succ k'' =>
              right
              exact ih.mpr ⟨k'' + 1, by omega, by simpa using hklen, hall', hnp⟩

/-- A `USER\s+(?!root)` match at the current position, decomposed. -/
theorem matchUserHere_iff (cs : List Char) :
    matchUserHere cs = true ↔
      isPrefixList "USER".toList cs = true ∧
        ∃ k, 1 ≤ k ∧ k ≤ (cs.drop 4).length ∧ ((cs.drop 4).take k).all isWs = true ∧
          isPrefixList "root".toList ((cs.drop 4).drop k) = false := by
  rw [matchUserHere, Bool.and_eq_true, wsNotRoot_iff]

/-- The multiline scan for `^USER\s+(?!root)`, positionally: a match exists
iff it exists at offset 0 or just after some newline. -/
theorem searchUserAux_iff (cs : List Char) : ∀ flag : Bool,
    searchUserAux flag cs = true ↔
      ((flag = true ∧ matchUserHere cs = true) ∨
        ∃ i, i < cs.length ∧ cs.getD i ' ' = '\n' ∧
          matchUserHere (cs.drop (i + 1)) = true) := by
  induction cs with
  | nil =>
      intro flag
      constructor
      · intro h
        simp only [searchUserAux, Bool.and_eq_true] at h
        exact absurd h.2 (by decide)
      · rintro (⟨-, hm⟩ | ⟨i, hi, -, -⟩)
        · exact absurd hm (by decide)
        · simp at hi
  | cons c rest ih =>
      intro flag
      simp only [searchUserAux, Bool.or_eq_true, Bool.and_eq_true]
      rw [ih (c == '\n')]
      constructor
      · rintro (⟨hf, hm⟩ | (⟨hf', hm'⟩ | ⟨i, hi, hnl, hm'⟩))
        · exact Or.inl ⟨hf, hm⟩
        · refine Or.inr ⟨0, by simp, ?_, by simpa using hm'⟩
          simpa using hf'
        · exact Or.inr ⟨i + 1, by simpa using Nat.succ_lt_succ hi,
            by simpa using hnl, by simpa using hm'⟩
      · rintro (⟨hf, hm⟩ | ⟨i, hi, hnl, hm⟩)
        · exact Or.inl ⟨hf, hm⟩
        · right
          cases i with
          | zero => exact Or.inl ⟨by simpa using hnl, by simpa using hm⟩
          | succ i' =>
              exact Or.inr ⟨i', by simpa using hi, by simpa using hnl, by simpa using hm⟩

/-- Positional form of the `re.search` scan over the whole content: a match exists iff
one is anchored at offset 0 or right after a newline at offset `i - 1`. -/
theorem searchUser_iff_position (cs : List Char) :
    searchUserAux true cs = true ↔
      ∃ i, (i = 0 ∨ (1 ≤ i ∧ i ≤ cs.length ∧ cs.getD (i - 1) ' ' = '\n')) ∧
        matchUserHere (cs.drop i) = true := by
  rw [searchUserAux_iff]
  constructor
  · rintro (⟨-, hm⟩ | ⟨i, hi, hnl, hm⟩)
    · exact ⟨0, Or.inl rfl, by simpa using hm⟩
    · exact ⟨i + 1, Or.inr ⟨by omega, by omega, by simpa using hnl⟩, hm⟩
  · rintro ⟨i, hls, hm⟩
    rcases hls with h0 | ⟨h1, hlen, hnl⟩
    · subst h0
      exact Or.inl ⟨rfl, by simpa using hm⟩
    · right
      refine ⟨i - 1, by omega, by simpa using hnl, ?_⟩
      have hii : i - 1 + 1 = i := by omega
      rw [hii]
      exact hm

/-- Counterexample to C4 as stated: `USER root2` has an argument different
from `root`, so under the claim the check should pass, but the code's
negative lookahead `(?!root)` rejects any argument *starting with* `root`;
conversely `USER  root` (two spaces) has the argument `root`, so under the
claim it should fail, but backtracking inside `\s+(?!root)` lets the code
accept it. -/
theorem C4_nonroot_counterexample :
    spec_nonroot "useradd\nUSER root2" = true ∧
      check_nonroot_user fsUserRoot2 = false ∧
      spec_nonroot "useradd\nUSER  root" = false ∧
      check_nonroot_user fsUserDoubleSpaceRoot = true := by
  refine ⟨by decide, by decide, by decide, by decide⟩

/-- C4 (amended). The non-root check passes iff the Dockerfile
contains `useradd` or `adduser` and the regex `^USER\s+(?!root)` matches:
at some line start (offset 0 or right after a newline) the text spells
`USER`, and some nonempty whitespace prefix of what follows can be
consumed so that the remainder does not start with `root`. (So `USER
root2` fails although its argument differs from `root`, and `USER  root`
— two spaces — passes although its argument is `root`.) -/
theorem C4_nonroot_amended (b1 b2 b3 : Bool) (e1 e2 : Except Unit String)
    (content : String) :
    check_nonroot_user ⟨b1, .ok content, b2, e1, b3, e2⟩ = true ↔
      ((hasSub "useradd" content || hasSub "adduser" content) = true ∧
        ∃ i, (i = 0 ∨ (1 ≤ i ∧ i ≤ content.toList.length ∧
                content.toList.getD (i - 1) ' ' = '\n')) ∧
          isPrefixList "USER".toList (content.toList.drop i) = true ∧
          ∃ k, 1 ≤ k ∧ k ≤ ((content.toList.drop i).drop 4).length ∧
            (((content.toList.drop i).drop 4).take k).all isWs = true ∧
            isPrefixList "root".toList (((content.toList.drop i).drop 4).drop k)
              = false) := by
  have hred : check_nonroot_user ⟨b1, .ok content, b2, e1, b3, e2⟩
      = ((hasSub "useradd" content || hasSub "adduser" content) && searchUser content) := rfl
  rw [hred, Bool.and_eq_true]
  apply and_congr Iff.rfl
  rw [searchUser, searchUser_iff_position]
  exact exists_congr fun i => and_congr Iff.rfl (by rw [matchUserHere_iff])

/-- Witness for the amended C4: `useradd` plus `USER app` passes. -/
theorem C4_nonroot_amended_witness :
    check_nonroot_user ⟨true, .ok "useradd\nUSER app", false, .error (),
        false, .error ()⟩ = true :=
  (C4_nonroot_amended true false false (.error ()) (.error ()) "useradd\nUSER app").mpr
    ⟨by decide, 8, Or.inr ⟨by decide, by decide, by decide⟩, by decide,
      1, by decide, by decide, by decide, by decide⟩

end DockerChallenge
